import Mathlib

/-!
Verification of the VideoAnalyzer plugin pipeline.

The pipeline turns a video reference into notes: it resolves the source
(`video_downloader.py`), samples frames (`screenshot_extractor.py`), extracts
audio, transcribes it, generates notes (`note_generator.py`), and persists the
results (`result_saver.py`), orchestrated by `VideoAnalyzer.analyze`
(`VideoAnalyzer.py`).  External processes and HTTP services are modelled as
oracle functions; file systems as association lists; Python floats on the
duration arithmetic as rationals.
-/

/-- Python exception kinds raised by the pipeline modules
(`ValueError`, `FileNotFoundError`, `RuntimeError`). -/
inductive PyErr where
  | valueError (msg : String)
  | fileNotFound (msg : String)
  | runtimeError (msg : String)
deriving Repr, DecidableEq

/-- Python `int(x)` applied to a number: truncation toward zero. -/
def truncQ (q : ℚ) : ℤ := if 0 ≤ q then ⌊q⌋ else ⌈q⌉

/-- `ScreenshotExtractor._calculate_timestamps` (screenshot_extractor.py,
lines 107-129): `possible_count = int(duration / interval)`,
`count = min(possible_count, max_count)`, empty when `count <= 0`, otherwise
`step = duration / (count + 1)` and timestamps `step * i` for `i` in
`1..count`. -/
def calculate_timestamps (interval max_count : ℤ) (duration : ℚ) : List ℚ :=
  let possible_count : ℤ := truncQ (duration / (interval : ℚ))
  let count : ℤ := min possible_count max_count
  if count ≤ 0 then []
  else
    let step : ℚ := duration / ((count : ℚ) + 1)
    (List.range count.toNat).map (fun i : ℕ => step * ((i : ℚ) + 1))

/-- Python `str.startswith`, on the character lists (kernel-reducible, unlike
the byte-position-based core `String.startsWith`). -/
def pyStartsWith (s pre : String) : Bool := pre.toList.isPrefixOf s.toList

/-- Drop the first `n` characters of a string, as Python slicing `s[n:]`. -/
def pyDrop (s : String) (n : ℕ) : String := String.mk (s.toList.drop n)

/-- Left-to-right non-overlapping split of a character list on a nonempty
separator; the fuel argument (instantiated with the list length) only makes
the recursion structural. -/
def splitOnFuel (sep : List Char) : ℕ → List Char → List (List Char)
  | _, [] => [[]]
  | 0, s => [s]
  | Nat.succ fuel, c :: rest =>
    if sep ≠ [] ∧ sep.isPrefixOf (c :: rest) then
      [] :: splitOnFuel sep fuel (rest.drop (sep.length - 1))
    else
      match splitOnFuel sep fuel rest with
      | [] => [[c]]
      | h :: t => (c :: h) :: t

/-- Python `str.split(sep)` for a nonempty separator (and the Lean
`String.splitOn` convention `[s]` for an empty one). -/
def pySplitOn (s sep : String) : List String :=
  if sep = "" then [s]
  else (splitOnFuel sep.toList s.toList.length s.toList).map String.mk

/-- Join a list of strings with a separator, as Python `sep.join(parts)`. -/
def joinWith (sep : String) : List String → String
  | [] => ""
  | [x] => x
  | x :: y :: rest => x ++ sep ++ joinWith sep (y :: rest)

/-- Python `str.replace(old, new)` for a nonempty pattern: replace every
non-overlapping occurrence, left to right. -/
def pyReplace (s old new : String) : String :=
  if old = "" then s else joinWith new (pySplitOn s old)

/-- Python `str.strip()`: remove leading and trailing whitespace. -/
def pyTrim (s : String) : String :=
  String.mk
    (((s.toList.dropWhile Char.isWhitespace).reverse.dropWhile Char.isWhitespace).reverse)

/-- Python `str.lower()` on the ASCII range. -/
def pyToLower (s : String) : String := String.mk (s.toList.map Char.toLower)

/-- Allowed local video extensions (video_downloader.py, line 71). -/
def valid_extensions : List String :=
  [".mp4", ".avi", ".mov", ".mkv", ".webm", ".flv", ".m4v"]

/-- The scheme recognised by `urllib.parse.urlparse`: the lowercased part of
the URL before the first colon, when it is a letter followed by
letters/digits/`+`/`-`/`.`; otherwise empty. -/
def urlScheme (url : String) : String :=
  match pySplitOn url ":" with
  | [] => ""
  | [_] => ""
  | h :: _ :: _ =>
    if h.length > 0 && (h.toList.headD ' ').isAlpha &&
        h.toList.all (fun c => c.isAlpha || c.isDigit || c == '+' || c == '-' || c == '.') then
      pyToLower h
    else ""

/-- The filesystem as seen by the Source Resolver: the paths `os.path.exists`
reports, and the subset `Path.is_file` reports. -/
structure FileSys where
  existing : List String
  isFile : List String
deriving Repr

/-- `VideoDownloader._is_local_file` (video_downloader.py, lines 38-53). -/
def is_local_file (fs : FileSys) (url : String) : Bool :=
  if url ∈ fs.existing then true
  else if urlScheme url = "file" then true
  else if url.toList.contains ':' ∧ ¬ pyStartsWith url "http" then true
  else false

/-- `pathlib.PurePath.suffix`: the extension of the final path component;
empty unless the last dot of the name sits at an interior position. -/
def pathSuffix (p : String) : String :=
  let name := (pySplitOn p "/").getLastD ""
  let cs := name.toList
  match ((List.range cs.length).filter (fun i => cs.getD i ' ' == '.')).getLast? with
  | none => ""
  | some i => if 0 < i ∧ i < cs.length - 1 then String.mk (cs.drop i) else ""

/-- `str(Path(p).absolute())` for the clean paths handled here: the path
itself when already absolute, else prefixed by the working directory. -/
def absolutePath (cwd p : String) : String :=
  if pyStartsWith p "/" then p else cwd ++ "/" ++ p

/-- `VideoDownloader._handle_local_file` (video_downloader.py, lines 55-78):
strip a `file://` prefix, require existence and regular-file-ness, require an
allow-listed extension (case-insensitively), and return the absolute path. -/
def handle_local_file (fs : FileSys) (cwd : String) (url : String) : Except PyErr String :=
  let stripped := if pyStartsWith url "file://" then pyDrop url 7 else url
  if stripped ∉ fs.existing then
    .error (.fileNotFound ("本地文件不存在: " ++ stripped))
  else if stripped ∉ fs.isFile then
    .error (.valueError ("不是有效的文件: " ++ stripped))
  else if pyToLower (pathSuffix stripped) ∉ valid_extensions then
    .error (.valueError ("不支持的视频格式: " ++ pathSuffix stripped))
  else
    .ok (absolutePath cwd stripped)

/-- `VideoDownloader.download` (video_downloader.py, lines 21-36): dispatch to
the local-file handler or to the remote downloader (an oracle here). -/
def downloaderDownload (fs : FileSys) (cwd : String)
    (remote : String → Except PyErr String) (url : String) : Except PyErr String :=
  if is_local_file fs url then handle_local_file fs cwd url else remote url

/-- The `academic` prompt template (note_generator.py, lines 46-54). -/
def academic_prompt : String :=
  "请基于以下视频转录文本，生成学术风格的笔记。要求：\n1. 使用正式的学术语言\n2. 提取关键概念和理论\n3. 组织成清晰的层次结构\n4. 包含重要的论据和证据\n5. 使用Markdown格式\n\n转录文本：\n{transcript}"

/-- The `casual` prompt template (note_generator.py, lines 56-63). -/
def casual_prompt : String :=
  "请基于以下视频转录文本，生成口语化的笔记。要求：\n1. 使用轻松易懂的语言\n2. 提取核心要点\n3. 保持简洁明了\n4. 使用Markdown格式\n\n转录文本：\n{transcript}"

/-- The `detailed` prompt template (note_generator.py, lines 65-72). -/
def detailed_prompt : String :=
  "请基于以下视频转录文本，生成详细的笔记。要求：\n1. 完整记录所有重要信息\n2. 保留细节和例子\n3. 组织成清晰的结构\n4. 使用Markdown格式，包含标题、列表等\n\n转录文本：\n{transcript}"

/-- The `brief` prompt template (note_generator.py, lines 74-80). -/
def brief_prompt : String :=
  "请基于以下视频转录文本，生成简要笔记。要求：\n1. 提取核心要点\n2. 简洁明了\n3. 使用Markdown格式\n\n转录文本：\n{transcript}"

/-- Python truthiness of an optional string: `None` and `""` are falsy. -/
def truthy : Option String → Bool
  | none => false
  | some s => s != ""

/-- `prompts.get(style, prompts['brief'])` (note_generator.py, line 83). -/
def promptForStyle (style : String) : String :=
  if style = "academic" then academic_prompt
  else if style = "casual" then casual_prompt
  else if style = "detailed" then detailed_prompt
  else if style = "brief" then brief_prompt
  else brief_prompt

/-- `NoteGenerator.generate_notes` (note_generator.py, lines 27-85), modelled
as the prompt text it submits to `_call_ai`; `.format(transcript=...)`
becomes replacement of the `{transcript}` placeholder. -/
def generate_notes_prompt (transcript style : String) (custom_prompt : Option String) : String :=
  if style = "custom" ∧ truthy custom_prompt then
    pyReplace (custom_prompt.getD "") "{transcript}" transcript
  else
    pyReplace (promptForStyle style) "{transcript}" transcript

/-- A nonempty all-digits parse, the core of Python `int`/`float` parsing. -/
def parseDigits? (cs : List Char) : Option ℕ :=
  if cs = [] then none
  else if cs.all Char.isDigit then
    some (cs.foldl (fun acc c => acc * 10 + (c.toNat - 48)) 0)
  else none

/-- Python `int(s)` on decimal strings: optional sign, then digits. -/
def pyParseInt (s : String) : Option ℤ :=
  match (pyTrim s).toList with
  | '-' :: rest => (parseDigits? rest).map (fun n => -(n : ℤ))
  | '+' :: rest => (parseDigits? rest).map (fun n => (n : ℤ))
  | cs => (parseDigits? cs).map (fun n => (n : ℤ))

/-- Python `float(s)` on decimal literals `[sign] digits [. digits]`. -/
def pyParseFloat (s : String) : Option ℚ :=
  let t := pyTrim s
  let signed : ℚ × String :=
    if pyStartsWith t "-" then (-1, pyDrop t 1)
    else if pyStartsWith t "+" then (1, pyDrop t 1) else (1, t)
  match pySplitOn signed.2 "." with
  | [w] => (parseDigits? w.toList).map (fun n => signed.1 * (n : ℚ))
  | [w, f] =>
    if w = "" ∧ f = "" then none
    else
      match (if w = "" then some 0 else parseDigits? w.toList),
            (if f = "" then some 0 else parseDigits? f.toList) with
      | some a, some b =>
        some (signed.1 * ((a : ℚ) + (b : ℚ) / ((10 : ℚ) ^ f.length)))
      | _, _ => none
  | _ => none

/-- Whether an ffmpeg diagnostic line contains `Duration:`
(Python `'Duration:' in line`). -/
def hasDurationTag (line : String) : Bool :=
  (pySplitOn line "Duration:").length > 1

/-- The duration field of a matching line
(`line.split('Duration:')[1].split(',')[0].strip()`). -/
def durationField (line : String) : String :=
  pyTrim ((pySplitOn ((pySplitOn line "Duration:").getD 1 "") ",").headD "")

/-- Parse `HH:MM:SS.ff` into seconds: `h, m, s = duration_str.split(':')`,
`int(h)*3600 + int(m)*60 + float(s)`; `none` models the exception path. -/
def parse_hms (s : String) : Option ℚ :=
  match pySplitOn s ":" with
  | [h, m, sec] =>
    match pyParseInt h, pyParseInt m, pyParseFloat sec with
    | some hn, some mn, some sq => some ((hn : ℚ) * 3600 + (mn : ℚ) * 60 + sq)
    | _, _, _ => none
  | _ => none

/-- `ScreenshotExtractor._get_video_duration` (screenshot_extractor.py,
lines 74-105), over the probe's diagnostic lines: the first line containing
`Duration:` is parsed; any failure yields 0. -/
def get_video_duration (lines : List String) : ℚ :=
  match lines.find? hasDurationTag with
  | none => 0
  | some line => (parse_hms (durationField line)).getD 0

/-- Zero-padded 3-digit formatting, Python `f"..0d"` with width 3. -/
def pad3 (n : ℕ) : String :=
  let s := toString n
  if s.length ≥ 3 then s else String.mk (List.replicate (3 - s.length) '0') ++ s

/-- The screenshot file path
`{outputDir}/{videoId}/screenshots/screenshot_NNN.jpg`. -/
def screenshotPath (output_dir video_id : String) (k : ℕ) : String :=
  output_dir ++ "/" ++ video_id ++ "/screenshots/screenshot_" ++ pad3 k ++ ".jpg"

/-- Frame Sampler configuration (the config keys screenshot_extractor.py
reads). -/
structure SamplerConfig where
  enable_screenshots : Bool
  screenshot_interval : ℤ
  max_screenshots : ℤ
deriving Repr

/-- `ScreenshotExtractor.extract` (screenshot_extractor.py, lines 23-72):
probe the duration from the tool's diagnostic lines, compute timestamps, and
keep the path of each frame whose single-frame extraction succeeds
(`frameOk i t` stands for `_extract_frame` returning `True` on the `i`-th
timestamp `t`). -/
def screenshotExtract (cfg : SamplerConfig) (output_dir : String)
    (probeLines : List String) (frameOk : ℕ → ℚ → Bool) (video_id : String) :
    List String :=
  if ¬ cfg.enable_screenshots then []
  else
    let duration := get_video_duration probeLines
    if duration ≤ 0 then []
    else
      (calculate_timestamps cfg.screenshot_interval cfg.max_screenshots
        duration).enum.filterMap
        (fun it => if frameOk it.1 it.2 then
            some (screenshotPath output_dir video_id (it.1 + 1)) else none)

/-- The Result Record dict assembled by `VideoAnalyzer.analyze`; optional
fields model keys that may be absent. -/
structure ResultRecord where
  url : String
  mode : String
  transcript : Option String
  video_id : String
  video_path : Option String
  content : Option String
  saved_files : Option (List (String × String))
  screenshots : Option (List String)
deriving Repr, DecidableEq

/-- Minimal JSON string escaping as `json.dump` with `ensure_ascii=False`:
quotes, backslashes and the common control characters; all other characters
(non-ASCII included) are preserved. -/
def jsonEscape (s : String) : String :=
  String.join (s.toList.map (fun c =>
    if c = '"' then "\\\"" else if c = '\\' then "\\\\"
    else if c = '\n' then "\\n" else if c = '\r' then "\\r"
    else if c = '\t' then "\\t" else String.mk [c]))

/-- A JSON string literal. -/
def jsonStr (s : String) : String := "\"" ++ jsonEscape s ++ "\""

/-- `json.dump(result, ...)` modelled as a deterministic serialization of the
record's present keys in their dict insertion order (download-mode records
insert `video_path` before `content`; pipeline records insert `transcript`
before `video_id`). The exact whitespace of `indent=2` is abstracted. -/
def encodeResult (r : ResultRecord) : String :=
  let fields :=
    [jsonStr "url" ++ ": " ++ jsonStr r.url,
     jsonStr "mode" ++ ": " ++ jsonStr r.mode]
    ++ (match r.transcript with
        | some t => [jsonStr "transcript" ++ ": " ++ jsonStr t]
        | none => [])
    ++ [jsonStr "video_id" ++ ": " ++ jsonStr r.video_id]
    ++ (match r.video_path with
        | some p => [jsonStr "video_path" ++ ": " ++ jsonStr p]
        | none => [])
    ++ (match r.content with
        | some c => [jsonStr "content" ++ ": " ++ jsonStr c]
        | none => [])
    ++ (match r.saved_files with
        | some m => [jsonStr "saved_files" ++ ": \x7b"
            ++ joinWith ", " (m.map (fun kv => jsonStr kv.1 ++ ": " ++ jsonStr kv.2))
            ++ "\x7d"]
        | none => [])
    ++ (match r.screenshots with
        | some l => [jsonStr "screenshots" ++ ": ["
            ++ joinWith ", " (l.map jsonStr) ++ "]"]
        | none => [])
  "\x7b" ++ joinWith ",\n" fields ++ "\x7d"

/-- Association-list update with truncate-overwrite semantics
(`open(p, 'w')`). -/
def listSet : List (String × String) → String → String → List (String × String)
  | [], k, v => [(k, v)]
  | (k', v') :: t, k, v =>
    if k' = k then (k, v) :: t else (k', v') :: listSet t k v

/-- Association-list lookup. -/
def listGet : List (String × String) → String → Option String
  | [], _ => none
  | (k', v') :: t, k => if k' = k then some v' else listGet t k

/-- The filesystem as the Result Persister sees it: written files, plus
injected faults (paths whose write raises, and whether `mkdir` raises). -/
structure FSState where
  files : List (String × String)
  failPaths : List String
  mkdirFails : Bool
deriving Repr, DecidableEq

/-- `open(p, 'w').write(c)`: truncate-overwrite, or `none` when the injected
fault for `p` fires. -/
def fsWrite (st : FSState) (p c : String) : Option FSState :=
  if p ∈ st.failPaths then none
  else some { st with files := listSet st.files p c }

/-- `Path(screenshot).relative_to(base)` for the paths at hand: strip the
`base ++ "/"` prefix, or fail (`ValueError`) when the path is not below
the base. -/
def relative_to (base p : String) : Option String :=
  if pyStartsWith p (base ++ "/") then some (pyDrop p (base.length + 1)) else none

/-- `Path(output_dir).parent`: drop the last path component. -/
def parentDir (p : String) : String :=
  joinWith "/" ((pySplitOn p "/").dropLast)

/-- `ResultSaver._generate_markdown` (result_saver.py, lines 78-112); `now`
is the `datetime.now().strftime('%Y-%m-%d %H:%M:%S')` string; `none` models
the `ValueError` escaping from `relative_to`. -/
def generate_markdown (output_dir : String) (r : ResultRecord)
    (screenshots : List String) (now : String) : Option String :=
  let meta := ["# 视频分析笔记\n", "## 基本信息\n",
    "- **视频URL**: " ++ r.url,
    "- **分析模式**: " ++ r.mode,
    "- **分析时间**: " ++ now,
    "\n---\n"]
  let shot : Option (List String) :=
    if screenshots ≠ [] then
      (screenshots.mapM (relative_to (parentDir output_dir))).map (fun rels =>
        ["## 视频截图\n"]
        ++ rels.enum.flatMap (fun it =>
          ["### 截图 " ++ toString (it.1 + 1) ++ "\n",
           "![截图" ++ toString (it.1 + 1) ++ "](" ++ it.2 ++ ")\n"])
        ++ ["\n---\n"])
    else some []
  match shot with
  | none => none
  | some shotLines =>
    let tail1 := ["## 分析内容\n", r.content.getD ""]
    let tail2 :=
      match r.transcript with
      | some t =>
        if r.content = some t then []
        else ["\n---\n", "## 完整转录\n", "```\n" ++ t ++ "\n```"]
      | none => []
    some (joinWith "\n" (meta ++ shotLines ++ tail1 ++ tail2))

/-- The `result.json` write, the tail of `ResultSaver.save`. -/
def saveJsonStep (dir : String) (st : FSState) (r : ResultRecord)
    (acc : List (String × String)) : FSState × List (String × String) :=
  match fsWrite st (dir ++ "/result.json") (encodeResult r) with
  | none => (st, [])
  | some st' => (st', acc ++ [("json", dir ++ "/result.json")])

/-- The `notes.md` write (when `content` is present) followed by the JSON
write; a failure is the caught-exception path returning an empty map while
earlier writes persist. -/
def saveNotesStep (output_dir dir : String) (st : FSState) (r : ResultRecord)
    (screenshots : List String) (now : String) (acc : List (String × String)) :
    FSState × List (String × String) :=
  match r.content with
  | none => saveJsonStep dir st r acc
  | some _ =>
    match generate_markdown output_dir r screenshots now with
    | none => (st, [])
    | some md =>
      match fsWrite st (dir ++ "/notes.md") md with
      | none => (st, [])
      | some st' => saveJsonStep dir st' r (acc ++ [("notes", dir ++ "/notes.md")])

/-- `ResultSaver.save` (result_saver.py, lines 19-76): create the output
directory, write `transcript.txt` when a transcript is present, `notes.md`
when content is present, and `result.json` always; any exception is caught
and an empty map returned, with earlier writes persisting. -/
def resultSaverSave (output_dir : String) (st : FSState) (r : ResultRecord)
    (video_id : String) (screenshots : List String) (now : String) :
    FSState × List (String × String) :=
  let dir := output_dir ++ "/" ++ video_id
  if st.mkdirFails then (st, [])
  else
    match r.transcript with
    | none => saveNotesStep output_dir dir st r screenshots now []
    | some t =>
      match fsWrite st (dir ++ "/transcript.txt") t with
      | none => (st, [])
      | some st1 =>
        saveNotesStep output_dir dir st1 r screenshots now
          [("transcript", dir ++ "/transcript.txt")]

/-- The condition under which some step of `ResultSaver.save` raises
internally: a `mkdir` fault, a faulted file write on the executed path, or a
`relative_to` failure while generating the Markdown. -/
def saveWouldFail (output_dir : String) (st : FSState) (r : ResultRecord)
    (video_id : String) (screenshots : List String) (now : String) : Bool :=
  let dir := output_dir ++ "/" ++ video_id
  st.mkdirFails
  || (r.transcript.isSome && decide ((dir ++ "/transcript.txt") ∈ st.failPaths))
  || (r.content.isSome &&
      ((generate_markdown output_dir r screenshots now).isNone
        || decide ((dir ++ "/notes.md") ∈ st.failPaths)))
  || decide ((dir ++ "/result.json") ∈ st.failPaths)

/-- The saved-files map produced by a fully successful `ResultSaver.save`. -/
def expectedSavedFiles (output_dir : String) (r : ResultRecord) (video_id : String) :
    List (String × String) :=
  let dir := output_dir ++ "/" ++ video_id
  (if r.transcript.isSome then [("transcript", dir ++ "/transcript.txt")] else [])
  ++ (if r.content.isSome then [("notes", dir ++ "/notes.md")] else [])
  ++ [("json", dir ++ "/result.json")]

/-- Pipeline events: one per external call or side effect of
`VideoAnalyzer.analyze`, in invocation order. -/
inductive Ev where
  | download
  | screenshots
  | audio
  | transcribe
  | summary
  | notes
  | save
  | cleanup
deriving Repr, DecidableEq

/-- The orchestrator configuration flags consulted by `analyze`. -/
structure Config where
  enable_screenshots : Bool
  keep_temp_files : Bool
deriving Repr, DecidableEq

/-- The external world as `analyze` sees it: a fresh uuid and one oracle per
component call. The screenshot extractor and the result saver are total
functions because those modules swallow their own exceptions. -/
structure Env where
  uuid : String
  download : String → Except PyErr String
  extract_screenshots : String → String → List String
  extract_audio : String → Except PyErr String
  transcribe : String → Option String → Except PyErr String
  gen_summary : String → Except PyErr String
  gen_notes : String → String → Option String → Except PyErr String
  save : ResultRecord → String → List String → List (String × String)

/-- `VideoAnalyzer.analyze` (VideoAnalyzer.py, lines 70-181), returning the
trace of component invocations together with the result record or the
propagated exception. -/
def analyze (cfg : Config) (env : Env) (url mode : String)
    (language : Option String) (style : String) (custom_prompt : Option String) :
    List Ev × Except PyErr ResultRecord :=
  let video_id := env.uuid
  match env.download url with
  | .error e => ([.download], .error e)
  | .ok video_path =>
    if mode = "download" then
      ([.download], .ok
        { url := url, mode := mode, transcript := none, video_id := video_id,
          video_path := some video_path,
          content := some ("视频已下载到: " ++ video_path),
          saved_files := none, screenshots := none })
    else
      let shotEvs : List Ev :=
        if cfg.enable_screenshots ∧ mode ≠ "transcribe" then [.screenshots] else []
      let screenshots : List String :=
        if cfg.enable_screenshots ∧ mode ≠ "transcribe" then
          env.extract_screenshots video_path video_id
        else []
      match env.extract_audio video_path with
      | .error e => ([.download] ++ shotEvs ++ [.audio], .error e)
      | .ok audio_path =>
        match env.transcribe audio_path language with
        | .error e => ([.download] ++ shotEvs ++ [.audio, .transcribe], .error e)
        | .ok transcript =>
          let contentEvs : List Ev :=
            if mode = "transcribe" then []
            else if mode = "summary" then [.summary] else [.notes]
          match
            (if mode = "transcribe" then Except.ok transcript
             else if mode = "summary" then env.gen_summary transcript
             else env.gen_notes transcript style custom_prompt) with
          | .error e =>
            ([.download] ++ shotEvs ++ [.audio, .transcribe] ++ contentEvs,
             .error e)
          | .ok content =>
            let preSave : ResultRecord :=
              { url := url, mode := mode, transcript := some transcript,
                video_id := video_id, video_path := none, content := some content,
                saved_files := none, screenshots := none }
            let saved := env.save preSave video_id screenshots
            let final : ResultRecord :=
              { preSave with
                saved_files := some saved, screenshots := some screenshots }
            ([.download] ++ shotEvs ++ [.audio, .transcribe] ++ contentEvs
              ++ [.save] ++ (if ¬ cfg.keep_temp_files then [.cleanup] else []),
             .ok final)

/-- A concrete happy-path environment for witnesses. -/
def env0 : Env :=
  { uuid := "id0",
    download := fun _ => .ok "/tmp/v.mp4",
    extract_screenshots := fun _ _ => [],
    extract_audio := fun _ => .ok "/tmp/a.wav",
    transcribe := fun _ _ => .ok "T",
    gen_summary := fun _ => .ok "S",
    gen_notes := fun _ _ _ => .ok "N",
    save := fun _ _ _ => [] }

/-- A concrete configuration for witnesses. -/
def cfg0 : Config := { enable_screenshots := true, keep_temp_files := false }

/-- An environment whose transcription call fails. -/
def envTFail : Env :=
  { env0 with transcribe := fun _ _ => .error (.runtimeError "API请求超时（300秒）") }

/-- The credential slice of the Run Configuration (VideoAnalyzer.py,
lines 36-41); a missing environment value is the empty string. -/
structure CredConfig where
  whisper_api_key : String
  whisper_api_url : String
  ai_api_key : String
  ai_api_url : String
deriving Repr, DecidableEq

/-- `Transcriber.__init__` (transcriber.py, lines 14-24). -/
def mkTranscriber (c : CredConfig) : Except PyErr Unit :=
  if c.whisper_api_key = "" then .error (.valueError "未配置Whisper API Key")
  else if c.whisper_api_url = "" then .error (.valueError "未配置Whisper API URL")
  else .ok ()

/-- `NoteGenerator.__init__` (note_generator.py, lines 14-25). -/
def mkNoteGenerator (c : CredConfig) : Except PyErr Unit :=
  if c.ai_api_key = "" then .error (.valueError "未配置AI API Key")
  else if c.ai_api_url = "" then .error (.valueError "未配置AI API URL")
  else .ok ()

/-- `VideoAnalyzer.__init__` (VideoAnalyzer.py, lines 62-68): the component
constructors run unconditionally, in order; only the Transcriber and the
NoteGenerator can raise. -/
def mkVideoAnalyzer (c : CredConfig) : Except PyErr Unit :=
  match mkTranscriber c with
  | .error e => .error e
  | .ok _ =>
    match mkNoteGenerator c with
    | .error e => .error e
    | .ok _ => .ok ()

/-- Constructing the analyzer and then running `analyze` on a request. -/
def runVideoAnalyzer (c : CredConfig) (cfg : Config) (env : Env) (url mode : String)
    (language : Option String) (style : String) (custom_prompt : Option String) :
    Except PyErr (List Ev × Except PyErr ResultRecord) :=
  match mkVideoAnalyzer c with
  | .error e => .error e
  | .ok _ => .ok (analyze cfg env url mode language style custom_prompt)

/-- C1: for every duration `d > 0` and parameters with `interval > 0`, the
Frame Sampler's timestamp computation produces exactly
`min(floor(d/interval), maxCount)` timestamps when that value is positive and
none otherwise; they satisfy `timestamp_i = (d/(count+1)) * i` (1-based), are
strictly increasing, and lie strictly inside `(0, d)`. -/
theorem c1_timestamp_sampling (interval max_count : ℤ) (d : ℚ)
    (hd : 0 < d) (hi : 0 < interval) :
    (0 < min ⌊d / (interval : ℚ)⌋ max_count →
      (calculate_timestamps interval max_count d).length
        = (min ⌊d / (interval : ℚ)⌋ max_count).toNat)
    ∧ (min ⌊d / (interval : ℚ)⌋ max_count ≤ 0 →
        calculate_timestamps interval max_count d = [])
    ∧ (∀ i, i < (calculate_timestamps interval max_count d).length →
        (calculate_timestamps interval max_count d).getD i 0
          = d / (((min ⌊d / (interval : ℚ)⌋ max_count : ℤ) : ℚ) + 1) * ((i : ℚ) + 1))
    ∧ (∀ i j, i < j → j < (calculate_timestamps interval max_count d).length →
        (calculate_timestamps interval max_count d).getD i 0
          < (calculate_timestamps interval max_count d).getD j 0)
    ∧ (∀ t ∈ calculate_timestamps interval max_count d, 0 < t ∧ t < d) := by
  have hq : (0 : ℚ) < (interval : ℚ) := by exact_mod_cast hi
  have hdiv : (0 : ℚ) ≤ d / (interval : ℚ) := le_of_lt (div_pos hd hq)
  have htr : truncQ (d / (interval : ℚ)) = ⌊d / (interval : ℚ)⌋ := by
    simp [truncQ, hdiv]
  have key : calculate_timestamps interval max_count d
      = if min ⌊d / (interval : ℚ)⌋ max_count ≤ 0 then []
        else (List.range (min ⌊d / (interval : ℚ)⌋ max_count).toNat).map
          (fun i : ℕ => d / (((min ⌊d / (interval : ℚ)⌋ max_count : ℤ) : ℚ) + 1)
            * ((i : ℚ) + 1)) := by
    simp only [calculate_timestamps, htr]
  by_cases hc : min ⌊d / (interval : ℚ)⌋ max_count ≤ 0
  · refine ⟨fun h0 => absurd h0 (not_lt.mpr hc), fun _ => by rw [key, if_pos hc],
      ?_, ?_, ?_⟩
    · intro i h
      rw [key, if_pos hc] at h
      simp at h
    · intro i j _ hj
      rw [key, if_pos hc] at hj
      simp at hj
    · intro t ht
      rw [key, if_pos hc] at ht
      simp at ht
  · push_neg at hc
    have hn1 : (1 : ℚ) ≤ ((min ⌊d / (interval : ℚ)⌋ max_count : ℤ) : ℚ) := by
      exact_mod_cast hc
    have hden : (0 : ℚ) < ((min ⌊d / (interval : ℚ)⌋ max_count : ℤ) : ℚ) + 1 := by
      linarith
    have hstep : 0 < d / (((min ⌊d / (interval : ℚ)⌋ max_count : ℤ) : ℚ) + 1) :=
      div_pos hd hden
    have hts : calculate_timestamps interval max_count d
        = (List.range (min ⌊d / (interval : ℚ)⌋ max_count).toNat).map
          (fun i : ℕ => d / (((min ⌊d / (interval : ℚ)⌋ max_count : ℤ) : ℚ) + 1)
            * ((i : ℚ) + 1)) := by
      rw [key, if_neg (not_le.mpr hc)]
    have hlen : (calculate_timestamps interval max_count d).length
        = (min ⌊d / (interval : ℚ)⌋ max_count).toNat := by
      rw [hts]; simp
    have hget : ∀ i, i < (calculate_timestamps interval max_count d).length →
        (calculate_timestamps interval max_count d).getD i 0
          = d / (((min ⌊d / (interval : ℚ)⌋ max_count : ℤ) : ℚ) + 1) * ((i : ℚ) + 1) := by
      intro i h
      rw [hlen] at h
      simp [hts, List.getD_eq_getElem?_getD, List.getElem?_map, List.getElem?_range, h]
    refine ⟨fun _ => hlen, fun h0 => absurd h0 (not_le.mpr hc), hget, ?_, ?_⟩
    · intro i j hij hj
      have hi' : i < (calculate_timestamps interval max_count d).length :=
        Nat.lt_trans hij hj
      rw [hget i hi', hget j hj]
      have hcast : ((i : ℚ) + 1) < ((j : ℚ) + 1) := by
        have : (i : ℚ) < (j : ℚ) := by exact_mod_cast hij
        linarith
      exact mul_lt_mul_of_pos_left hcast hstep
    · intro t ht
      rw [hts] at ht
      obtain ⟨i, hi, rfl⟩ := List.mem_map.mp ht
      rw [List.mem_range] at hi
      have hipos : (0 : ℚ) < (i : ℚ) + 1 := by positivity
      refine ⟨mul_pos hstep hipos, ?_⟩
      have htoNat : (((min ⌊d / (interval : ℚ)⌋ max_count).toNat : ℤ) : ℚ)
          = ((min ⌊d / (interval : ℚ)⌋ max_count : ℤ) : ℚ) := by
        rw [Int.toNat_of_nonneg (le_of_lt hc)]
      have hile : (i : ℚ) + 1 ≤ ((min ⌊d / (interval : ℚ)⌋ max_count : ℤ) : ℚ) := by
        have h1 : ((i : ℚ) + 1) ≤ (((min ⌊d / (interval : ℚ)⌋ max_count).toNat : ℤ) : ℚ) := by
          exact_mod_cast Nat.succ_le_of_lt hi
        rw [htoNat] at h1
        exact h1
      rw [div_mul_eq_mul_div, div_lt_iff₀ hden]
      have : (i : ℚ) + 1 < ((min ⌊d / (interval : ℚ)⌋ max_count : ℤ) : ℚ) + 1 := by
        linarith
      exact mul_lt_mul_of_pos_left this hd

/-- Witness for C1 at `d = 100`, `interval = 30`, `max_count = 10`
(count `min(3, 10) = 3`). -/
theorem c1_timestamp_sampling_witness :
    (0 : ℚ) < 100 ∧ (0 : ℤ) < 30 ∧
      (calculate_timestamps 30 10 100).length = (min ⌊(100 : ℚ) / ((30 : ℤ) : ℚ)⌋ 10).toNat :=
  ⟨by norm_num, by norm_num,
    (c1_timestamp_sampling 30 10 100 (by norm_num) (by norm_num)).1 (by
      have h3 : ⌊(100 : ℚ) / ((30 : ℤ) : ℚ)⌋ = 3 := by
        rw [Int.floor_eq_iff]
        norm_num
      rw [h3]
      norm_num)⟩

/-- C5: for an absolute local path that exists and is a regular file,
`download` returns the path unchanged in content when its case-insensitive
extension is in the allow-list, and fails with a `ValueError` (the spec's
`InvalidInput`) naming the unsupported format otherwise. -/
theorem c5_local_file_resolution (fs : FileSys) (cwd : String)
    (remote : String → Except PyErr String) (url : String)
    (habs : pyStartsWith url "/" = true)
    (hnp : pyStartsWith url "file://" = false)
    (hex : url ∈ fs.existing) (hfile : url ∈ fs.isFile) :
    (pyToLower (pathSuffix url) ∈ valid_extensions →
        downloaderDownload fs cwd remote url = .ok url)
    ∧ (pyToLower (pathSuffix url) ∉ valid_extensions →
        downloaderDownload fs cwd remote url
          = .error (.valueError ("不支持的视频格式: " ++ pathSuffix url))) := by
  have hloc : is_local_file fs url = true := by
    simp [is_local_file, hex]
  constructor
  · intro hext
    simp [downloaderDownload, hloc, handle_local_file, hnp, hex, hfile, hext,
      absolutePath, habs]
  · intro hext
    simp [downloaderDownload, hloc, handle_local_file, hnp, hex, hfile, hext]

/-- Witness for C5 at the existing regular file `/tmp/clip.mp4`. -/
theorem c5_local_file_resolution_witness :
    (pyStartsWith "/tmp/clip.mp4" "/" = true)
    ∧ downloaderDownload ⟨["/tmp/clip.mp4"], ["/tmp/clip.mp4"]⟩ "/cwd"
        (fun _ => .error (.runtimeError "remote")) "/tmp/clip.mp4"
        = .ok "/tmp/clip.mp4" :=
  ⟨by decide,
    (c5_local_file_resolution ⟨["/tmp/clip.mp4"], ["/tmp/clip.mp4"]⟩ "/cwd"
      (fun _ => .error (.runtimeError "remote")) "/tmp/clip.mp4"
      (by decide) (by decide) (by decide) (by decide)).1 (by decide)⟩

/-- C6: `generate_notes` with style `custom` and a truthy custom prompt
substitutes the transcript into the `{transcript}` placeholder of that
prompt; styles `academic`, `casual`, `detailed` select the fixed built-in
templates; every other style — including `custom` without a usable custom
prompt — falls back to the `brief` template. -/
theorem c6_note_prompt_selection (t : String) (cp : Option String) :
    (truthy cp = true →
        generate_notes_prompt t "custom" cp = pyReplace (cp.getD "") "{transcript}" t)
    ∧ generate_notes_prompt t "academic" cp = pyReplace academic_prompt "{transcript}" t
    ∧ generate_notes_prompt t "casual" cp = pyReplace casual_prompt "{transcript}" t
    ∧ generate_notes_prompt t "detailed" cp = pyReplace detailed_prompt "{transcript}" t
    ∧ (truthy cp = false →
        generate_notes_prompt t "custom" cp = pyReplace brief_prompt "{transcript}" t)
    ∧ (∀ style, style ∉ ["academic", "casual", "detailed", "custom"] →
        generate_notes_prompt t style cp = pyReplace brief_prompt "{transcript}" t) := by
  refine ⟨?_, ?_, ?_, ?_, ?_, ?_⟩
  · intro h
    simp [generate_notes_prompt, h]
  · simp [generate_notes_prompt, promptForStyle]
  · simp [generate_notes_prompt, promptForStyle]
  · simp [generate_notes_prompt, promptForStyle]
  · intro h
    simp [generate_notes_prompt, promptForStyle, h]
  · intro style hs
    simp only [List.mem_cons, List.not_mem_nil, or_false, not_or] at hs
    obtain ⟨h1, h2, h3, h4⟩ := hs
    simp [generate_notes_prompt, promptForStyle, h1, h2, h3, h4]

/-- Witness for C6 with a supplied custom prompt. -/
theorem c6_note_prompt_selection_witness :
    truthy (some "问题：{transcript}") = true
    ∧ generate_notes_prompt "T" "custom" (some "问题：{transcript}")
        = pyReplace ((some "问题：{transcript}").getD "") "{transcript}" "T" :=
  ⟨by decide, (c6_note_prompt_selection "T" (some "问题：{transcript}")).1 (by decide)⟩

/-- A `filterMap` by a boolean guard is the map of the filter. -/
theorem filterMap_guard {α β : Type} (p : α → Bool) (g : α → β) (l : List α) :
    l.filterMap (fun a => if p a then some (g a) else none) = (l.filter p).map g := by
  induction l with
  | nil => rfl
  | cons a t ih =>
    by_cases h : p a <;> simp [List.filterMap_cons, List.filter_cons, h, ih]

/-- C8: Frame Sampler failures are non-fatal: a probe whose diagnostics have
no `Duration:` line, or whose matching line does not parse, yields duration 0
and hence an empty extraction; and the extraction returns exactly the paths
of the frames whose single extraction succeeded, in timestamp order (a
sublist of the full candidate path sequence). -/
theorem c8_sampler_nonfatal (cfg : SamplerConfig) (output_dir : String)
    (probeLines : List String) (frameOk : ℕ → ℚ → Bool) (video_id : String) :
    (probeLines.find? hasDurationTag = none → get_video_duration probeLines = 0)
    ∧ (∀ line, probeLines.find? hasDurationTag = some line →
        parse_hms (durationField line) = none → get_video_duration probeLines = 0)
    ∧ (get_video_duration probeLines ≤ 0 →
        screenshotExtract cfg output_dir probeLines frameOk video_id = [])
    ∧ (cfg.enable_screenshots = true → 0 < get_video_duration probeLines →
        screenshotExtract cfg output_dir probeLines frameOk video_id
          = (((calculate_timestamps cfg.screenshot_interval cfg.max_screenshots
                (get_video_duration probeLines)).enum.filter
              (fun it => frameOk it.1 it.2)).map
            (fun it => screenshotPath output_dir video_id (it.1 + 1)))
        ∧ List.Sublist
            (screenshotExtract cfg output_dir probeLines frameOk video_id)
            ((calculate_timestamps cfg.screenshot_interval cfg.max_screenshots
                (get_video_duration probeLines)).enum.map
              (fun it => screenshotPath output_dir video_id (it.1 + 1)))) := by
  refine ⟨?_, ?_, ?_, ?_⟩
  · intro h
    simp [get_video_duration, h]
  · intro line h hp
    simp [get_video_duration, h, hp]
  · intro h
    by_cases he : cfg.enable_screenshots <;> simp [screenshotExtract, he, h]
  · intro he hd
    have hstep : screenshotExtract cfg output_dir probeLines frameOk video_id
        = ((calculate_timestamps cfg.screenshot_interval cfg.max_screenshots
            (get_video_duration probeLines)).enum.filterMap
          (fun it => if frameOk it.1 it.2 then
              some (screenshotPath output_dir video_id (it.1 + 1)) else none)) := by
      simp [screenshotExtract, he, not_le.mpr hd]
    have heq : screenshotExtract cfg output_dir probeLines frameOk video_id
        = (((calculate_timestamps cfg.screenshot_interval cfg.max_screenshots
              (get_video_duration probeLines)).enum.filter
            (fun it => frameOk it.1 it.2)).map
          (fun it => screenshotPath output_dir video_id (it.1 + 1))) := by
      rw [hstep]
      exact filterMap_guard _ _ _
    refine ⟨heq, ?_⟩
    rw [heq]
    exact List.Sublist.map _ (List.filter_sublist _)

/-- Witness for C8: diagnostics without a `Duration:` line yield an empty
extraction. -/
theorem c8_sampler_nonfatal_witness :
    get_video_duration ["frame=  100 fps= 25"] ≤ 0
    ∧ screenshotExtract ⟨true, 30, 10⟩ "/out" ["frame=  100 fps= 25"]
        (fun _ _ => true) "vid" = [] :=
  ⟨by decide,
    (c8_sampler_nonfatal ⟨true, 30, 10⟩ "/out" ["frame=  100 fps= 25"]
      (fun _ _ => true) "vid").2.2.1 (by decide)⟩

/-- No event other than `screenshots` occurs in the optional screenshot-event
list. -/
theorem not_mem_shotEvs (P : Prop) [Decidable P] (e : Ev) (hne : e ≠ Ev.screenshots) :
    e ∉ (if P then [Ev.screenshots] else []) := by
  split <;> simp [hne]

/-- No event other than `summary`/`notes` occurs in the content-step event
list. -/
theorem not_mem_contentEvs (mode : String) (e : Ev)
    (h1 : e ≠ Ev.summary) (h2 : e ≠ Ev.notes) :
    e ∉ (if mode = "transcribe" then ([] : List Ev)
         else if mode = "summary" then [Ev.summary] else [Ev.notes]) := by
  split
  · simp
  · split <;> simp [h1, h2]

/-- Case analysis of `analyze`: the download fails (trace `[download]`), or
download mode succeeds immediately, or a later stage fails with neither the
save nor the cleanup event in the trace, or the pipeline succeeds with the
trace ending in `save` (plus `cleanup` exactly when temp files are not kept)
and a fully populated record. -/
theorem analyze_trace_cases (cfg : Config) (env : Env) (url mode : String)
    (lang : Option String) (style : String) (cp : Option String) :
    (∃ e, analyze cfg env url mode lang style cp = ([Ev.download], Except.error e))
    ∨ (mode = "download"
        ∧ ∃ r, analyze cfg env url mode lang style cp = ([Ev.download], Except.ok r))
    ∨ (∃ pre e, analyze cfg env url mode lang style cp = (pre, Except.error e)
        ∧ Ev.cleanup ∉ pre ∧ Ev.save ∉ pre)
    ∨ (mode ≠ "download"
        ∧ ∃ pre r, analyze cfg env url mode lang style cp
            = (pre ++ [Ev.save]
                ++ (if ¬ cfg.keep_temp_files then [Ev.cleanup] else []),
               Except.ok r)
          ∧ Ev.cleanup ∉ pre ∧ Ev.save ∉ pre
          ∧ r.saved_files.isSome = true ∧ r.screenshots.isSome = true
          ∧ r.content.isSome = true ∧ r.transcript.isSome = true) := by
  cases hdl : env.download url with
  | error e =>
    exact Or.inl ⟨e, by simp [analyze, hdl]⟩
  | ok vp =>
    by_cases hm : mode = "download"
    · refine Or.inr (Or.inl ⟨hm,
        ⟨{ url := url, mode := mode, transcript := none, video_id := env.uuid,
           video_path := some vp, content := some ("视频已下载到: " ++ vp),
           saved_files := none, screenshots := none }, ?_⟩⟩)
      simp [analyze, hdl, hm]
    · cases haud : env.extract_audio vp with
      | error e =>
        refine Or.inr (Or.inr (Or.inl
          ⟨[Ev.download]
            ++ (if cfg.enable_screenshots ∧ mode ≠ "transcribe"
                then [Ev.screenshots] else [])
            ++ [Ev.audio], e, ?_, ?_, ?_⟩))
        · simp [analyze, hdl, hm, haud]
        · by_cases hp : cfg.enable_screenshots ∧ mode ≠ "transcribe" <;> simp [hp]
        · by_cases hp : cfg.enable_screenshots ∧ mode ≠ "transcribe" <;> simp [hp]
      | ok ap =>
        cases htr : env.transcribe ap lang with
        | error e =>
          refine Or.inr (Or.inr (Or.inl
            ⟨[Ev.download]
              ++ (if cfg.enable_screenshots ∧ mode ≠ "transcribe"
                  then [Ev.screenshots] else [])
              ++ [Ev.audio, Ev.transcribe], e, ?_, ?_, ?_⟩))
          · simp [analyze, hdl, hm, haud, htr]
          · by_cases hp : cfg.enable_screenshots ∧ mode ≠ "transcribe" <;> simp [hp]
          · by_cases hp : cfg.enable_screenshots ∧ mode ≠ "transcribe" <;> simp [hp]
        | ok t =>
          cases hcr : (if mode = "transcribe" then (Except.ok t : Except PyErr String)
              else if mode = "summary" then env.gen_summary t
              else env.gen_notes t style cp) with
          | error e =>
            refine Or.inr (Or.inr (Or.inl
              ⟨[Ev.download]
                ++ (if cfg.enable_screenshots ∧ mode ≠ "transcribe"
                    then [Ev.screenshots] else [])
                ++ [Ev.audio, Ev.transcribe]
                ++ (if mode = "transcribe" then ([] : List Ev)
                    else if mode = "summary" then [Ev.summary] else [Ev.notes]),
                e, ?_, ?_, ?_⟩))
            · simp [analyze, hdl, hm, haud, htr, hcr]
            · have h1 := not_mem_shotEvs (cfg.enable_screenshots ∧ mode ≠ "transcribe")
                Ev.cleanup (by simp)
              have h2 := not_mem_contentEvs mode Ev.cleanup (by simp) (by simp)
              simp [List.mem_append, h1, h2]
            · have h1 := not_mem_shotEvs (cfg.enable_screenshots ∧ mode ≠ "transcribe")
                Ev.save (by simp)
              have h2 := not_mem_contentEvs mode Ev.save (by simp) (by simp)
              simp [List.mem_append, h1, h2]
          | ok content =>
            refine Or.inr (Or.inr (Or.inr ⟨hm,
              ⟨[Ev.download]
                ++ (if cfg.enable_screenshots ∧ mode ≠ "transcribe"
                    then [Ev.screenshots] else [])
                ++ [Ev.audio, Ev.transcribe]
                ++ (if mode = "transcribe" then ([] : List Ev)
                    else if mode = "summary" then [Ev.summary] else [Ev.notes]),
               { url := url, mode := mode, transcript := some t,
                 video_id := env.uuid, video_path := none,
                 content := some content,
                 saved_files := some (env.save
                   { url := url, mode := mode, transcript := some t,
                     video_id := env.uuid, video_path := none,
                     content := some content, saved_files := none,
                     screenshots := none } env.uuid
                   (if cfg.enable_screenshots ∧ mode ≠ "transcribe"
                    then env.extract_screenshots vp env.uuid else [])),
                 screenshots := some
                   (if cfg.enable_screenshots ∧ mode ≠ "transcribe"
                    then env.extract_screenshots vp env.uuid else []) },
               ?_, ?_, ?_, rfl, rfl, rfl, rfl⟩⟩))
            · simp [analyze, hdl, hm, haud, htr, hcr]
            · have h1 := not_mem_shotEvs (cfg.enable_screenshots ∧ mode ≠ "transcribe")
                Ev.cleanup (by simp)
              have h2 := not_mem_contentEvs mode Ev.cleanup (by simp) (by simp)
              simp [List.mem_append, h1, h2]
            · have h1 := not_mem_shotEvs (cfg.enable_screenshots ∧ mode ≠ "transcribe")
                Ev.save (by simp)
              have h2 := not_mem_contentEvs mode Ev.save (by simp) (by simp)
              simp [List.mem_append, h1, h2]

/-- C4: a `download` run never raises the transcription event or a
text-generation event (`summary`/`notes`), and a `transcribe` run never
raises the Frame Sampler event. -/
theorem c4_mode_gating (cfg : Config) (env : Env) (url : String)
    (lang : Option String) (style : String) (cp : Option String) :
    (Ev.transcribe ∉ (analyze cfg env url "download" lang style cp).1
      ∧ Ev.summary ∉ (analyze cfg env url "download" lang style cp).1
      ∧ Ev.notes ∉ (analyze cfg env url "download" lang style cp).1)
    ∧ Ev.screenshots ∉ (analyze cfg env url "transcribe" lang style cp).1 := by
  constructor
  · cases hdl : env.download url with
    | error e => refine ⟨?_, ?_, ?_⟩ <;> simp [analyze, hdl]
    | ok vp => refine ⟨?_, ?_, ?_⟩ <;> simp [analyze, hdl]
  · cases hdl : env.download url with
    | error e => simp [analyze, hdl]
    | ok vp =>
      cases haud : env.extract_audio vp with
      | error e => simp [analyze, hdl, haud]
      | ok ap =>
        cases htr : env.transcribe ap lang with
        | error e => simp [analyze, hdl, haud, htr]
        | ok t =>
          by_cases hk : cfg.keep_temp_files <;>
            simp [analyze, hdl, haud, htr, hk]

/-- C9: if any stage after source resolution fails, `analyze` propagates the
exception and the cleanup step never runs — even when `keep_temp_files` is
false; deletion of the temporary files happens only on the successful path,
directly after the persistence step. -/
theorem c9_no_cleanup_on_error (cfg : Config) (env : Env) (url mode : String)
    (lang : Option String) (style : String) (cp : Option String) :
    (∀ e, (analyze cfg env url mode lang style cp).2 = .error e →
        Ev.cleanup ∉ (analyze cfg env url mode lang style cp).1)
    ∧ (Ev.cleanup ∈ (analyze cfg env url mode lang style cp).1 →
        ((analyze cfg env url mode lang style cp).2.isOk = true
          ∧ cfg.keep_temp_files = false
          ∧ ∃ p, (analyze cfg env url mode lang style cp).1
              = p ++ [Ev.save, Ev.cleanup])) := by
  rcases analyze_trace_cases cfg env url mode lang style cp with
    ⟨e, h⟩ | ⟨hm, r, h⟩ | ⟨pre, e, h, hc, hs⟩ | ⟨hm, pre, r, h, hc, hs, _, _, _, _⟩
  · constructor
    · intro e' _
      rw [h]
      simp
    · intro hmem
      rw [h] at hmem
      simp at hmem
  · constructor
    · intro e' he'
      rw [h] at he'
      simp at he'
    · intro hmem
      rw [h] at hmem
      simp at hmem
  · constructor
    · intro e' _
      rw [h]
      exact hc
    · intro hmem
      rw [h] at hmem
      exact absurd hmem hc
  · constructor
    · intro e' he'
      rw [h] at he'
      simp at he'
    · intro hmem
      cases hck : cfg.keep_temp_files with
      | true =>
        rw [h] at hmem
        simp [hck, hc] at hmem
      | false =>
        refine ⟨by rw [h]; simp [Except.isOk, Except.toBool], rfl, ⟨pre, ?_⟩⟩
        rw [h]
        simp [hck]

/-- Witness for C9: a failing transcription call aborts the run with no
cleanup event in the trace. -/
theorem c9_no_cleanup_on_error_witness :
    (analyze cfg0 envTFail "u" "analyze" none "brief" none).2
        = .error (.runtimeError "API请求超时（300秒）")
    ∧ Ev.cleanup ∉ (analyze cfg0 envTFail "u" "analyze" none "brief" none).1 :=
  ⟨rfl, (c9_no_cleanup_on_error cfg0 envTFail "u" "analyze" none "brief" none).1
    (.runtimeError "API请求超时（300秒）") rfl⟩

/-- C2 counterexample: in download mode the returned record DOES contain a
`content` key (the download message), and contains neither `saved_files` nor
`screenshots` (nor `transcript`) — against the claim that persistence is
skipped because the record has no `content`/`transcript` key and that every
successful result matches the Result Record shape plus `saved_files` and
`screenshots`. -/
theorem c2_download_mode_counterexample :
    (analyze cfg0 env0 "u" "download" none "brief" none).1 = [Ev.download]
    ∧ (analyze cfg0 env0 "u" "download" none "brief" none).2
        = Except.ok
          { url := "u", mode := "download", transcript := none,
            video_id := "id0", video_path := some "/tmp/v.mp4",
            content := some "视频已下载到: /tmp/v.mp4",
            saved_files := none, screenshots := none } :=
  ⟨rfl, rfl⟩

/-- C2 (amended): in download mode `analyze` resolves the source and returns
immediately with the resolved path; persistence is skipped because of the
early return (no save event), not because of a missing `content` key — the
record is `{url, mode, video_id, video_path, content}` with a `content`
message naming the path and no `transcript`, `saved_files` or `screenshots`
keys. For every other mode, a successful result carries `saved_files`,
`screenshots`, `content` and `transcript`. -/
theorem c2_download_mode (cfg : Config) (env : Env) (url : String)
    (lang : Option String) (style : String) (cp : Option String) :
    (∀ vp, env.download url = .ok vp →
      analyze cfg env url "download" lang style cp
        = ([Ev.download], Except.ok
            { url := url, mode := "download", transcript := none,
              video_id := env.uuid, video_path := some vp,
              content := some ("视频已下载到: " ++ vp),
              saved_files := none, screenshots := none }))
    ∧ (∀ mode r, mode ≠ "download" →
        (analyze cfg env url mode lang style cp).2 = Except.ok r →
        r.saved_files.isSome = true ∧ r.screenshots.isSome = true
          ∧ r.content.isSome = true ∧ r.transcript.isSome = true) := by
  constructor
  · intro vp hdl
    simp [analyze, hdl]
  · intro mode r hm hok
    rcases analyze_trace_cases cfg env url mode lang style cp with
      ⟨e, h⟩ | ⟨hm', _, _⟩ | ⟨pre, e, h, _, _⟩ | ⟨_, pre, r', h, _, _, h1, h2, h3, h4⟩
    · rw [h] at hok
      simp at hok
    · exact absurd hm' hm
    · rw [h] at hok
      simp at hok
    · rw [h] at hok
      simp at hok
      subst hok
      exact ⟨h1, h2, h3, h4⟩

/-- Witness for C2 (amended) at the happy-path environment. -/
theorem c2_download_mode_witness :
    env0.download "u" = .ok "/tmp/v.mp4"
    ∧ analyze cfg0 env0 "u" "download" none "brief" none
        = ([Ev.download], Except.ok
            { url := "u", mode := "download", transcript := none,
              video_id := "id0", video_path := some "/tmp/v.mp4",
              content := some "视频已下载到: /tmp/v.mp4",
              saved_files := none, screenshots := none }) :=
  ⟨rfl, (c2_download_mode cfg0 env0 "u" none "brief" none).1 "/tmp/v.mp4" rfl⟩

/-- C10: an empty transcription or text-generation credential makes
construction of the orchestrator fail with the corresponding configuration
`ValueError` (the spec's `ConfigurationError`), so every run — download mode
included — fails before any stage executes. -/
theorem c10_constructor_failfast (c : CredConfig)
    (h : c.whisper_api_key = "" ∨ c.whisper_api_url = ""
      ∨ c.ai_api_key = "" ∨ c.ai_api_url = "") :
    (∃ msg, mkVideoAnalyzer c = .error (.valueError msg))
    ∧ ∀ cfg env url mode lang style cp, ∃ msg,
        runVideoAnalyzer c cfg env url mode lang style cp
          = .error (.valueError msg) := by
  have hmk : ∃ msg, mkVideoAnalyzer c = .error (.valueError msg) := by
    rcases h with h1 | h2 | h3 | h4
    · exact ⟨"未配置Whisper API Key",
        by simp [mkVideoAnalyzer, mkTranscriber, h1]⟩
    · by_cases h1 : c.whisper_api_key = ""
      · exact ⟨"未配置Whisper API Key",
          by simp [mkVideoAnalyzer, mkTranscriber, h1]⟩
      · exact ⟨"未配置Whisper API URL",
          by simp [mkVideoAnalyzer, mkTranscriber, h1, h2]⟩
    · by_cases h1 : c.whisper_api_key = ""
      · exact ⟨"未配置Whisper API Key",
          by simp [mkVideoAnalyzer, mkTranscriber, h1]⟩
      · by_cases h2 : c.whisper_api_url = ""
        · exact ⟨"未配置Whisper API URL",
            by simp [mkVideoAnalyzer, mkTranscriber, h1, h2]⟩
        · exact ⟨"未配置AI API Key",
            by simp [mkVideoAnalyzer, mkTranscriber, mkNoteGenerator, h1, h2, h3]⟩
    · by_cases h1 : c.whisper_api_key = ""
      · exact ⟨"未配置Whisper API Key",
          by simp [mkVideoAnalyzer, mkTranscriber, h1]⟩
      · by_cases h2 : c.whisper_api_url = ""
        · exact ⟨"未配置Whisper API URL",
            by simp [mkVideoAnalyzer, mkTranscriber, h1, h2]⟩
        · by_cases h3 : c.ai_api_key = ""
          · exact ⟨"未配置AI API Key",
              by simp [mkVideoAnalyzer, mkTranscriber, mkNoteGenerator, h1, h2, h3]⟩
          · exact ⟨"未配置AI API URL",
              by simp [mkVideoAnalyzer, mkTranscriber, mkNoteGenerator, h1, h2, h3, h4]⟩
  refine ⟨hmk, ?_⟩
  intro cfg env url mode lang style cp
  obtain ⟨msg, hmsg⟩ := hmk
  exact ⟨msg, by simp [runVideoAnalyzer, hmsg]⟩

/-- Witness for C10: with an empty transcription key, even a `download` run
fails at construction. -/
theorem c10_constructor_failfast_witness :
    ((⟨"", "u", "k", "u"⟩ : CredConfig).whisper_api_key = ""
      ∨ (⟨"", "u", "k", "u"⟩ : CredConfig).whisper_api_url = ""
      ∨ (⟨"", "u", "k", "u"⟩ : CredConfig).ai_api_key = ""
      ∨ (⟨"", "u", "k", "u"⟩ : CredConfig).ai_api_url = "")
    ∧ ∃ msg, runVideoAnalyzer ⟨"", "u", "k", "u"⟩ cfg0 env0 "u" "download"
        none "brief" none = .error (.valueError msg) :=
  ⟨Or.inl rfl,
    (c10_constructor_failfast ⟨"", "u", "k", "u"⟩ (Or.inl rfl)).2
      cfg0 env0 "u" "download" none "brief" none⟩

/-- Setting a key makes it readable. -/
theorem listGet_listSet_self (l : List (String × String)) (k v : String) :
    listGet (listSet l k v) k = some v := by
  induction l with
  | nil => simp [listSet, listGet]
  | cons a t ih =>
    obtain ⟨ka, va⟩ := a
    by_cases hk : ka = k
    · simp [listSet, hk, listGet]
    · simp [listSet, hk, listGet, ih]

/-- Setting one key leaves the others unchanged. -/
theorem listGet_listSet_ne (l : List (String × String)) (k k' v : String)
    (h : k' ≠ k) : listGet (listSet l k' v) k = listGet l k := by
  induction l with
  | nil => simp [listSet, listGet, h]
  | cons a t ih =>
    obtain ⟨ka, va⟩ := a
    by_cases h1 : ka = k'
    · subst h1
      simp [listSet, listGet, h]
    · simp only [listSet, if_neg h1]
      by_cases h2 : ka = k <;> simp [listGet, h2, ih]

/-- Re-writing the value a key already holds is a no-op. -/
theorem listSet_noop (l : List (String × String)) (k v : String)
    (h : listGet l k = some v) : listSet l k v = l := by
  induction l with
  | nil => simp [listGet] at h
  | cons a t ih =>
    obtain ⟨ka, va⟩ := a
    by_cases h1 : ka = k
    · subst h1
      simp [listGet] at h
      simp [listSet, h]
    · simp [listGet, h1] at h
      simp [listSet, h1, ih h]

/-- Characterisation of a successful `fsWrite`. -/
theorem fsWrite_ok (st : FSState) (p c : String) (st' : FSState)
    (h : fsWrite st p c = some st') :
    p ∉ st.failPaths ∧ st' = { st with files := listSet st.files p c } := by
  by_cases hp : p ∈ st.failPaths
  · simp [fsWrite, hp] at h
  · simp [fsWrite, hp] at h
    exact ⟨hp, h.symm⟩

/-- Writing a value a path already holds succeeds and changes nothing. -/
theorem fsWrite_noop (st : FSState) (p c : String)
    (h1 : p ∉ st.failPaths) (h2 : listGet st.files p = some c) :
    fsWrite st p c = some st := by
  simp [fsWrite, h1, listSet_noop _ _ _ h2]

/-- A successful write does not disturb other paths. -/
theorem fsWrite_get_other (st : FSState) (p c : String) (st' : FSState) (k : String)
    (h : fsWrite st p c = some st') (hk : p ≠ k) :
    listGet st'.files k = listGet st.files k := by
  obtain ⟨_, hst⟩ := fsWrite_ok _ _ _ _ h
  rw [hst]
  exact listGet_listSet_ne _ _ _ _ hk

/-- Appending distinct suffixes to the same prefix yields distinct strings. -/
theorem string_append_right_ne (d a b : String) (h : a ≠ b) : d ++ a ≠ d ++ b := by
  intro he
  apply h
  cases d with
  | mk dd =>
    cases a with
    | mk da =>
      cases b with
      | mk db =>
        have hd : dd ++ da = dd ++ db := by
          have := congrArg String.data he
          simpa [String.data] using this
        exact congrArg String.mk (List.append_cancel_left hd)


/-- The JSON step does not change the fault configuration. -/
theorem saveJsonStep_preserves (dir : String) (st : FSState) (r : ResultRecord)
    (acc : List (String × String)) :
    (saveJsonStep dir st r acc).1.failPaths = st.failPaths
    ∧ (saveJsonStep dir st r acc).1.mkdirFails = st.mkdirFails := by
  unfold saveJsonStep
  cases hw : fsWrite st (dir ++ "/result.json") (encodeResult r) with
  | none =>
    try simp only [hw]
    simp
  | some st1 =>
    obtain ⟨_, hst1⟩ := fsWrite_ok _ _ _ _ hw
    try simp only [hw]
    simp [hst1]

/-- The notes-plus-JSON step does not change the fault configuration. -/
theorem saveNotesStep_preserves (od dir : String) (st : FSState) (r : ResultRecord)
    (ss : List String) (now : String) (acc : List (String × String)) :
    (saveNotesStep od dir st r ss now acc).1.failPaths = st.failPaths
    ∧ (saveNotesStep od dir st r ss now acc).1.mkdirFails = st.mkdirFails := by
  unfold saveNotesStep
  cases hc : r.content with
  | none =>
    try simp only [hc]
    exact saveJsonStep_preserves dir st r acc
  | some cval =>
    cases hmd : generate_markdown od r ss now with
    | none => simp [hc, hmd]
    | some md =>
      cases hw : fsWrite st (dir ++ "/notes.md") md with
      | none => simp [hc, hmd, hw]
      | some st1 =>
        obtain ⟨_, hst1⟩ := fsWrite_ok _ _ _ _ hw
        have hj := saveJsonStep_preserves dir st1 r (acc ++ [("notes", dir ++ "/notes.md")])
        have hf : st1.failPaths = st.failPaths := by rw [hst1]
        have hm2 : st1.mkdirFails = st.mkdirFails := by rw [hst1]
        simp only [hc, hmd, hw]
        exact ⟨hj.1.trans hf, hj.2.trans hm2⟩

/-- The notes-plus-JSON step does not disturb paths other than its own two. -/
theorem saveNotesStep_get_other (od dir : String) (st : FSState) (r : ResultRecord)
    (ss : List String) (now : String) (acc : List (String × String)) (k : String)
    (hk1 : (dir ++ "/notes.md") ≠ k) (hk2 : (dir ++ "/result.json") ≠ k) :
    listGet (saveNotesStep od dir st r ss now acc).1.files k = listGet st.files k := by
  unfold saveNotesStep saveJsonStep
  cases hc : r.content with
  | none =>
    cases hw : fsWrite st (dir ++ "/result.json") (encodeResult r) with
    | none => simp [hc, hw]
    | some st1 => simp [hc, hw, fsWrite_get_other _ _ _ _ _ hw hk2]
  | some cval =>
    cases hmd : generate_markdown od r ss now with
    | none => simp [hc, hmd]
    | some md =>
      cases hw : fsWrite st (dir ++ "/notes.md") md with
      | none => simp [hc, hmd, hw]
      | some st1 =>
        cases hw2 : fsWrite st1 (dir ++ "/result.json") (encodeResult r) with
        | none => simp [hc, hmd, hw, hw2, fsWrite_get_other _ _ _ _ _ hw hk1]
        | some st2 =>
          simp [hc, hmd, hw, hw2, fsWrite_get_other _ _ _ _ _ hw2 hk2,
            fsWrite_get_other _ _ _ _ _ hw hk1]

/-- Re-running the JSON step from its own output state reproduces it. -/
theorem saveJsonStep_stable (dir : String) (st : FSState) (r : ResultRecord)
    (acc : List (String × String)) (st' : FSState) (m : List (String × String))
    (h : saveJsonStep dir st r acc = (st', m)) :
    saveJsonStep dir st' r acc = (st', m) := by
  unfold saveJsonStep at h ⊢
  cases hw : fsWrite st (dir ++ "/result.json") (encodeResult r) with
  | none =>
    try rw [hw] at h
    injection h with h1 h2
    subst h1
    subst h2
    try rw [hw]
  | some st1 =>
    try rw [hw] at h
    injection h with h1 h2
    subst h1
    subst h2
    obtain ⟨hnp, hst1⟩ := fsWrite_ok _ _ _ _ hw
    have hnoop : fsWrite st1 (dir ++ "/result.json") (encodeResult r) = some st1 := by
      apply fsWrite_noop
      · rw [hst1]
        exact hnp
      · rw [hst1]
        exact listGet_listSet_self _ _ _
    rw [hnoop]

/-- Re-running the notes-plus-JSON step from its own output state reproduces
it. -/
theorem saveNotesStep_stable (od dir : String) (st : FSState) (r : ResultRecord)
    (ss : List String) (now : String) (acc : List (String × String))
    (st' : FSState) (m : List (String × String))
    (h : saveNotesStep od dir st r ss now acc = (st', m)) :
    saveNotesStep od dir st' r ss now acc = (st', m) := by
  unfold saveNotesStep at h ⊢
  cases hc : r.content with
  | none =>
    try simp only [hc] at h ⊢
    exact saveJsonStep_stable _ _ _ _ _ _ h
  | some cval =>
    try simp only [hc] at h ⊢
    cases hmd : generate_markdown od r ss now with
    | none =>
      try simp only [hmd] at h ⊢
      injection h with h1 h2
      subst h1
      subst h2
      rfl
    | some md =>
      try simp only [hmd] at h ⊢
      cases hw : fsWrite st (dir ++ "/notes.md") md with
      | none =>
        try simp only [hw] at h
        injection h with h1 h2
        subst h1
        subst h2
        try rw [hw]
        try simp only [hw]
      | some st1 =>
        try simp only [hw] at h
        obtain ⟨hnp, hst1⟩ := fsWrite_ok _ _ _ _ hw
        unfold saveJsonStep at h
        cases hw2 : fsWrite st1 (dir ++ "/result.json") (encodeResult r) with
        | none =>
          try simp only [hw2] at h
          injection h with h1 h2
          subst h1
          subst h2
          have hnoop : fsWrite st1 (dir ++ "/notes.md") md = some st1 := by
            apply fsWrite_noop
            · rw [hst1]
              exact hnp
            · rw [hst1]
              exact listGet_listSet_self _ _ _
          rw [hnoop]
          unfold saveJsonStep
          simp [hw2]
        | some st2 =>
          try simp only [hw2] at h
          injection h with h1 h2
          subst h1
          subst h2
          obtain ⟨hnp2, hst2⟩ := fsWrite_ok _ _ _ _ hw2
          have hfail1 : st1.failPaths = st.failPaths := by rw [hst1]
          have hfail2 : st2.failPaths = st.failPaths := by rw [hst2, hfail1]
          have hgetn : listGet st2.files (dir ++ "/notes.md") = some md := by
            rw [hst2]
            rw [listGet_listSet_ne _ _ _ _
              (string_append_right_ne dir "/result.json" "/notes.md" (by decide))]
            rw [hst1]
            exact listGet_listSet_self _ _ _
          have hnoop : fsWrite st2 (dir ++ "/notes.md") md = some st2 := by
            apply fsWrite_noop
            · rw [hfail2]
              exact hnp
            · exact hgetn
          rw [hnoop]
          unfold saveJsonStep
          have hnoop2 : fsWrite st2 (dir ++ "/result.json") (encodeResult r)
              = some st2 := by
            apply fsWrite_noop
            · rw [hfail2]
              rw [hfail1] at hnp2
              exact hnp2
            · rw [hst2]
              exact listGet_listSet_self _ _ _
          simp [hnoop2]

/-- C3 (amended): at a fixed generation timestamp, `save` is idempotent:
invoking it twice with the same result record, run id and screenshot list
leaves the filesystem and the returned map exactly as after the first call —
files are truncate-overwritten, never appended or duplicated. (Byte-identity
of `notes.md` across calls holds only at equal timestamps, because the
Markdown embeds `datetime.now()`; see the counterexample.) -/
theorem c3_save_idempotent (od : String) (st : FSState) (r : ResultRecord)
    (vid : String) (ss : List String) (now : String) :
    resultSaverSave od (resultSaverSave od st r vid ss now).1 r vid ss now
      = resultSaverSave od st r vid ss now := by
  obtain ⟨⟨st', m⟩, hsv⟩ : ∃ p, resultSaverSave od st r vid ss now = p := ⟨_, rfl⟩
  rw [hsv]
  show resultSaverSave od st' r vid ss now = (st', m)
  simp only [resultSaverSave] at hsv ⊢
  by_cases hmk : st.mkdirFails = true
  · rw [if_pos hmk] at hsv
    injection hsv with h1 h2
    subst h1
    subst h2
    rw [if_pos hmk]
  · rw [if_neg hmk] at hsv
    cases ht : r.transcript with
    | none =>
      try simp only [ht] at hsv ⊢
      have hpres := (saveNotesStep_preserves od (od ++ "/" ++ vid) st r ss now []).2
      rw [hsv] at hpres
      have hmk' : ¬ (st'.mkdirFails = true) := by
        rw [hpres]
        exact hmk
      rw [if_neg hmk']
      exact saveNotesStep_stable _ _ _ _ _ _ _ _ _ hsv
    | some tval =>
      try simp only [ht] at hsv ⊢
      cases hw : fsWrite st (od ++ "/" ++ vid ++ "/transcript.txt") tval with
      | none =>
        try simp only [hw] at hsv
        injection hsv with h1 h2
        subst h1
        subst h2
        rw [if_neg hmk]
        try simp only [ht]
        simp [hw]
      | some st1 =>
        try simp only [hw] at hsv
        obtain ⟨hnp, hst1⟩ := fsWrite_ok _ _ _ _ hw
        have hfp : st'.failPaths = st1.failPaths := by
          have hx := (saveNotesStep_preserves od (od ++ "/" ++ vid) st1 r ss now
            [("transcript", od ++ "/" ++ vid ++ "/transcript.txt")]).1
          rw [hsv] at hx
          exact hx
        have hmkd : st'.mkdirFails = st1.mkdirFails := by
          have hx := (saveNotesStep_preserves od (od ++ "/" ++ vid) st1 r ss now
            [("transcript", od ++ "/" ++ vid ++ "/transcript.txt")]).2
          rw [hsv] at hx
          exact hx
        have hfail1 : st1.failPaths = st.failPaths := by rw [hst1]
        have hmk1 : st1.mkdirFails = st.mkdirFails := by rw [hst1]
        have hmk' : ¬ (st'.mkdirFails = true) := by
          rw [hmkd, hmk1]
          exact hmk
        have hget : listGet st'.files (od ++ "/" ++ vid ++ "/transcript.txt")
            = some tval := by
          have hoth := saveNotesStep_get_other od (od ++ "/" ++ vid) st1 r ss now
            [("transcript", od ++ "/" ++ vid ++ "/transcript.txt")]
            (od ++ "/" ++ vid ++ "/transcript.txt")
            (string_append_right_ne (od ++ "/" ++ vid) "/notes.md" "/transcript.txt"
              (by decide))
            (string_append_right_ne (od ++ "/" ++ vid) "/result.json" "/transcript.txt"
              (by decide))
          rw [hsv] at hoth
          rw [hoth, hst1]
          exact listGet_listSet_self _ _ _
        have hnoop : fsWrite st' (od ++ "/" ++ vid ++ "/transcript.txt") tval
            = some st' := by
          apply fsWrite_noop
          · rw [hfp, hfail1]
            exact hnp
          · exact hget
        rw [if_neg hmk']
        try simp only [ht]
        simp only [hnoop]
        exact saveNotesStep_stable _ _ _ _ _ _ _ _ _ hsv

/-- C3 counterexample: the synthesized Markdown embeds the generation time
(`datetime.now()`), so a second `save` with the same result record, run id
and screenshot list — but one clock second later — leaves `notes.md` with
different bytes than the first call; the claim's unconditional
byte-identity fails. -/
theorem c3_save_idempotent_counterexample :
    listGet (resultSaverSave "/out" (resultSaverSave "/out" ⟨[], [], false⟩
        ⟨"u", "analyze", some "T", "vid", none, some "C", none, none⟩
        "vid" [] "2024-01-01 00:00:00").1
        ⟨"u", "analyze", some "T", "vid", none, some "C", none, none⟩
        "vid" [] "2024-01-01 00:00:01").1.files ("/out/vid" ++ "/notes.md")
      ≠ listGet (resultSaverSave "/out" ⟨[], [], false⟩
        ⟨"u", "analyze", some "T", "vid", none, some "C", none, none⟩
        "vid" [] "2024-01-01 00:00:00").1.files ("/out/vid" ++ "/notes.md") := by
  decide

/-- C7: `save` never raises to its caller — it is a total function of the
injected faults: whenever an internal step fails (directory creation, a file
write on the executed path, or Markdown generation), the returned saved-files
map is empty; when nothing fails, the full map is returned; and the success
of `analyze` never depends on what the save step returns, so the caller
still receives the in-memory result record. -/
theorem c7_save_best_effort (od : String) (st : FSState) (r : ResultRecord)
    (vid : String) (ss : List String) (now : String) :
    (saveWouldFail od st r vid ss now = true →
        (resultSaverSave od st r vid ss now).2 = [])
    ∧ (saveWouldFail od st r vid ss now = false →
        (resultSaverSave od st r vid ss now).2 = expectedSavedFiles od r vid)
    ∧ (∀ (cfg : Config) (env : Env)
        (s1 s2 : ResultRecord → String → List String → List (String × String))
        (url mode : String) (lang : Option String) (style : String)
        (cp : Option String),
        (analyze cfg { env with save := s1 } url mode lang style cp).2.isOk
          = (analyze cfg { env with save := s2 } url mode lang style cp).2.isOk) := by
  have hmain : (resultSaverSave od st r vid ss now).2
      = (if saveWouldFail od st r vid ss now = true then []
         else expectedSavedFiles od r vid) := by
    by_cases hmk : st.mkdirFails = true
    · simp [resultSaverSave, saveWouldFail, hmk]
    · cases ht : r.transcript with
      | some tval =>
        by_cases hjt : (od ++ "/" ++ vid ++ "/transcript.txt") ∈ st.failPaths
        · simp [resultSaverSave, saveWouldFail, fsWrite, hmk, ht, hjt]
        · cases hc : r.content with
          | none =>
            by_cases hj : (od ++ "/" ++ vid ++ "/result.json") ∈ st.failPaths
            · simp [resultSaverSave, saveNotesStep, saveJsonStep, fsWrite,
                saveWouldFail, expectedSavedFiles, hmk, ht, hjt, hc, hj]
            · simp [resultSaverSave, saveNotesStep, saveJsonStep, fsWrite,
                saveWouldFail, expectedSavedFiles, hmk, ht, hjt, hc, hj]
          | some cval =>
            cases hmd : generate_markdown od r ss now with
            | none =>
              simp [resultSaverSave, saveNotesStep, saveJsonStep, fsWrite,
                saveWouldFail, expectedSavedFiles, hmk, ht, hjt, hc, hmd]
            | some md =>
              by_cases hn : (od ++ "/" ++ vid ++ "/notes.md") ∈ st.failPaths
              · simp [resultSaverSave, saveNotesStep, saveJsonStep, fsWrite,
                  saveWouldFail, expectedSavedFiles, hmk, ht, hjt, hc, hmd, hn]
              · by_cases hj : (od ++ "/" ++ vid ++ "/result.json") ∈ st.failPaths
                · simp [resultSaverSave, saveNotesStep, saveJsonStep, fsWrite,
                    saveWouldFail, expectedSavedFiles, hmk, ht, hjt, hc, hmd, hn, hj]
                · simp [resultSaverSave, saveNotesStep, saveJsonStep, fsWrite,
                    saveWouldFail, expectedSavedFiles, hmk, ht, hjt, hc, hmd, hn, hj]
      | none =>
        cases hc : r.content with
        | none =>
          by_cases hj : (od ++ "/" ++ vid ++ "/result.json") ∈ st.failPaths
          · simp [resultSaverSave, saveNotesStep, saveJsonStep, fsWrite,
              saveWouldFail, expectedSavedFiles, hmk, ht, hc, hj]
          · simp [resultSaverSave, saveNotesStep, saveJsonStep, fsWrite,
              saveWouldFail, expectedSavedFiles, hmk, ht, hc, hj]
        | some cval =>
          cases hmd : generate_markdown od r ss now with
          | none =>
            simp [resultSaverSave, saveNotesStep, saveJsonStep, fsWrite,
              saveWouldFail, expectedSavedFiles, hmk, ht, hc, hmd]
          | some md =>
            by_cases hn : (od ++ "/" ++ vid ++ "/notes.md") ∈ st.failPaths
            · simp [resultSaverSave, saveNotesStep, saveJsonStep, fsWrite,
                saveWouldFail, expectedSavedFiles, hmk, ht, hc, hmd, hn]
            · by_cases hj : (od ++ "/" ++ vid ++ "/result.json") ∈ st.failPaths
              · simp [resultSaverSave, saveNotesStep, saveJsonStep, fsWrite,
                  saveWouldFail, expectedSavedFiles, hmk, ht, hc, hmd, hn, hj]
              · simp [resultSaverSave, saveNotesStep, saveJsonStep, fsWrite,
                  saveWouldFail, expectedSavedFiles, hmk, ht, hc, hmd, hn, hj]
  refine ⟨?_, ?_, ?_⟩
  · intro h
    rw [hmain, if_pos h]
  · intro h
    rw [hmain]
    simp [h]
  · intro cfg env s1 s2 url mode lang style cp
    cases hdl : env.download url with
    | error e => simp [analyze, hdl]
    | ok vp =>
      by_cases hm : mode = "download"
      · simp [analyze, hdl, hm]
      · cases haud : env.extract_audio vp with
        | error e => simp [analyze, hdl, hm, haud]
        | ok ap =>
          cases htr : env.transcribe ap lang with
          | error e => simp [analyze, hdl, hm, haud, htr]
          | ok t =>
            cases hcr : (if mode = "transcribe" then (Except.ok t : Except PyErr String)
                else if mode = "summary" then env.gen_summary t
                else env.gen_notes t style cp) with
            | error e => simp [analyze, hdl, hm, haud, htr, hcr]
            | ok content =>
              simp [analyze, hdl, hm, haud, htr, hcr, Except.isOk, Except.toBool]

/-- Witness for C7: an injected `mkdir` fault makes `save` return the empty
map (instead of raising). -/
theorem c7_save_best_effort_witness :
    saveWouldFail "/out" ⟨[], [], true⟩
        ⟨"u", "analyze", some "T", "vid", none, some "C", none, none⟩
        "vid" [] "NOW" = true
    ∧ (resultSaverSave "/out" ⟨[], [], true⟩
        ⟨"u", "analyze", some "T", "vid", none, some "C", none, none⟩
        "vid" [] "NOW").2 = [] :=
  ⟨by decide,
    (c7_save_best_effort "/out" ⟨[], [], true⟩
      ⟨"u", "analyze", some "T", "vid", none, some "C", none, none⟩
      "vid" [] "NOW").1 (by decide)⟩

/-- Witness for C4 at the concrete happy-path environment. -/
theorem c4_mode_gating_witness :
    Ev.transcribe ∉ (analyze cfg0 env0 "u" "download" none "brief" none).1
    ∧ Ev.screenshots ∉ (analyze cfg0 env0 "u" "transcribe" none "brief" none).1 :=
  ⟨((c4_mode_gating cfg0 env0 "u" none "brief" none).1).1,
   (c4_mode_gating cfg0 env0 "u" none "brief" none).2⟩
